import Mathlib

/-!
Verification development for the pyrail iRail client
(`pyrail/irail.py`): parameter validation, token-bucket rate limiting,
ETag-based response caching, and the request orchestration loop.

Modelling conventions: Python floats (timestamps, sleep durations) are
rationals; Python `int(x)` truncation toward zero is `pyInt`; fallible
paths return `Option`; dictionaries are association lists with distinct
keys; the single-threaded asyncio event loop makes the advisory lock in
`_do_request` a no-op in the model, and every `asyncio.sleep` is
recorded as trace data instead of really suspending.  Each call to
`time.time()` is modelled by an explicit clock argument.
-/

namespace Pyrail

/-- Python `int(x)` applied to a float: truncation toward zero. -/
def pyInt (q : Rat) : Int := if 0 ≤ q then ⌊q⌋ else -⌊-q⌋

/-! ### Python `datetime.strptime` for the formats `%d%m%y` and `%H%M`

`datetime.strptime` compiles each format directive to a regex
alternation, matches the concatenated pattern against the input with
ordinary backtracking (two-digit alternatives before the one-digit
ones), then fails if unconverted characters remain or if the matched
numbers do not form a valid calendar date.  The functions below follow
that procedure literally on the character list of the input. -/

/-- Numeric value of a decimal digit character. -/
def digitVal (c : Char) : Nat := c.toNat - 48

/-- Directive `%d`, two-digit alternatives `3[01]`, `[12][0-9]`, `0[1-9]`. -/
def dayTwo : List Char → Option (Nat × List Char)
  | a :: b :: rest =>
    if a = '3' ∧ (b = '0' ∨ b = '1') then some (30 + digitVal b, rest)
    else if (a = '1' ∨ a = '2') ∧ b.isDigit then some (digitVal a * 10 + digitVal b, rest)
    else if a = '0' ∧ ('1' ≤ b ∧ b ≤ '9') then some (digitVal b, rest)
    else none
  | _ => none

/-- Directive `%d`, one-digit alternative `[1-9]`. -/
def dayOne : List Char → Option (Nat × List Char)
  | a :: rest => if '1' ≤ a ∧ a ≤ '9' then some (digitVal a, rest) else none
  | [] => none

/-- Directive `%m`, two-digit alternatives `1[0-2]`, `0[1-9]`. -/
def monthTwo : List Char → Option (Nat × List Char)
  | a :: b :: rest =>
    if a = '1' ∧ ('0' ≤ b ∧ b ≤ '2') then some (10 + digitVal b, rest)
    else if a = '0' ∧ ('1' ≤ b ∧ b ≤ '9') then some (digitVal b, rest)
    else none
  | _ => none

/-- Directive `%m`, one-digit alternative `[1-9]`. -/
def monthOne : List Char → Option (Nat × List Char)
  | a :: rest => if '1' ≤ a ∧ a ≤ '9' then some (digitVal a, rest) else none
  | [] => none

/-- Directive `%y`: exactly two decimal digits. -/
def yearTwo : List Char → Option (Nat × List Char)
  | a :: b :: rest =>
    if a.isDigit ∧ b.isDigit then some (digitVal a * 10 + digitVal b, rest) else none
  | _ => none

/-- Month then year, trying the two-digit month alternatives first. -/
def monthYear (cs : List Char) : Option (Nat × Nat × List Char) :=
  (do
    let (m, r1) ← monthTwo cs
    let (y, r2) ← yearTwo r1
    pure (m, y, r2)) <|>
  (do
    let (m, r1) ← monthOne cs
    let (y, r2) ← yearTwo r1
    pure (m, y, r2))

/-- Full `%d%m%y` match in backtracking order: the day alternatives are
tried outermost, two-digit day before one-digit day. -/
def matchDMY (cs : List Char) : Option (Nat × Nat × Nat × List Char) :=
  (do
    let (d, r1) ← dayTwo cs
    let (m, y, r2) ← monthYear r1
    pure (d, m, y, r2)) <|>
  (do
    let (d, r1) ← dayOne cs
    let (m, y, r2) ← monthYear r1
    pure (d, m, y, r2))

/-- Century rule of `%y`: 00-68 map to 2000-2068, 69-99 to 1969-1999. -/
def pyYear (y : Nat) : Nat := if y ≤ 68 then 2000 + y else 1900 + y

/-- Gregorian leap-year rule used by `datetime`. -/
def isLeapYear (y : Nat) : Bool := y % 4 = 0 ∧ (y % 100 ≠ 0 ∨ y % 400 = 0)

/-- Number of days of a month, as enforced by the `datetime` constructor. -/
def daysInMonth (m y : Nat) : Nat :=
  if m = 2 then (if isLeapYear y then 29 else 28)
  else if m = 4 ∨ m = 6 ∨ m = 9 ∨ m = 11 then 30
  else 31

/-- Success of `datetime.strptime(s, "%d%m%y")`: the regex finds its
first match, no unconverted characters may remain, and the matched
numbers must form a real calendar date. -/
def strptimeDDMMYY (s : String) : Bool :=
  match matchDMY s.data with
  | some (d, m, y, rest) => rest.isEmpty ∧ d ≤ daysInMonth m (pyYear y)
  | none => false

/-- Directive `%H`, two-digit alternatives `2[0-3]`, `[01][0-9]`. -/
def hourTwo : List Char → Option (List Char)
  | a :: b :: rest =>
    if a = '2' ∧ ('0' ≤ b ∧ b ≤ '3') then some rest
    else if (a = '0' ∨ a = '1') ∧ b.isDigit then some rest
    else none
  | _ => none

/-- Directive `%H`, one-digit alternative `[0-9]`. -/
def hourOne : List Char → Option (List Char)
  | a :: rest => if a.isDigit then some rest else none
  | [] => none

/-- Directive `%M`, two-digit alternative `[0-5][0-9]`. -/
def minuteTwo : List Char → Option (List Char)
  | a :: b :: rest =>
    if ('0' ≤ a ∧ a ≤ '5') ∧ b.isDigit then some rest else none
  | _ => none

/-- Directive `%M`, one-digit alternative `[0-9]`. -/
def minuteOne : List Char → Option (List Char)
  | a :: rest => if a.isDigit then some rest else none
  | [] => none

/-- Both minute alternatives, two-digit first. -/
def minuteAny (cs : List Char) : Option (List Char) :=
  minuteTwo cs <|> minuteOne cs

/-- Full `%H%M` match in backtracking order: hour alternatives
outermost, two-digit before one-digit. -/
def matchHM (cs : List Char) : Option (List Char) :=
  (hourTwo cs >>= minuteAny) <|> (hourOne cs >>= minuteAny)

/-- Success of `datetime.strptime(s, "%H%M")`: the regex finds its
first match and no unconverted characters may remain; every matched
value is already a legal time of day. -/
def strptimeHHMM (s : String) : Bool :=
  match matchHM s.data with
  | some rest => rest.isEmpty
  | none => false

/-! ### Parameter dictionaries and the endpoint table

A request parameter dictionary `dict[str, Any]` is an association list
whose values are `Option String`: `none` models Python `None`, `some s`
a string value.  (All endpoint wrappers pass strings.)  Keys of a
Python dict are distinct; lookups take the first matching key. -/

/-- Parameter dictionary. -/
abbrev Params := List (String × Option String)

/-- Lookup of a key: `some v` when the key is present with value `v`. -/
def lookupParam : Params → String → Option (Option String)
  | [], _ => none
  | (k, v) :: rest, key => if k = key then some v else lookupParam rest key

/-- Python `key in params`. -/
def containsKey (ps : Params) (k : String) : Bool := (lookupParam ps k).isSome

/-- Python `params.get(key)`: `None` when the key is absent, otherwise
the stored value (which may itself be `None`). -/
def dictGet (ps : Params) (k : String) : Option String :=
  match lookupParam ps k with
  | none => none
  | some v => v

/-- Parameter contract of one endpoint: required, mutually exclusive
and optional parameter names (the `endpoints` class attribute). -/
structure EndpointSpec where
  required : List String
  xor : List String
  optional : List String
deriving DecidableEq

/-- The `iRail.endpoints` table. -/
def endpoints : List (String × EndpointSpec) :=
  [("stations", ⟨[], [], []⟩),
   ("liveboard", ⟨[], ["station", "id"], ["date", "time", "arrdep", "alerts"]⟩),
   ("connections", ⟨["from", "to"], [], ["date", "time", "timesel", "typeOfTransport"]⟩),
   ("vehicle", ⟨["id"], [], ["date", "alerts"]⟩),
   ("composition", ⟨["id"], [], ["data"]⟩),
   ("disturbances", ⟨[], [], ["lineBreakCharacter"]⟩)]

/-- Lookup of a method name in the endpoint table. -/
def lookupEndpoint (method : String) : Option EndpointSpec :=
  match endpoints.find? (fun kv => kv.1 = method) with
  | some kv => some kv.2
  | none => none

/-- `iRail._validate_date`: `None` and the empty string are accepted
without parsing (Python falsiness); otherwise `strptime` must succeed.
Character classes are modelled over ASCII digits. -/
def validate_date : Option String → Bool
  | none => true
  | some s => if s = "" then true else strptimeDDMMYY s

/-- `iRail._validate_time`: same shape as `_validate_date`. -/
def validate_time : Option String → Bool
  | none => true
  | some s => if s = "" then true else strptimeHHMM s

/-- `iRail._validate_params`: unknown endpoints are invalid; a present
`date`/`time` must pass its format check; all required parameters must
be present and non-`None`; when an xor group exists, exactly one of its
members must be present and non-`None`; every supplied key must belong
to required ++ xor ++ optional. -/
def validate_params (method : String) (params : Params) : Bool :=
  match lookupEndpoint method with
  | none => false
  | some ep =>
    (!(containsKey params "date") || validate_date (dictGet params "date")) &&
    (!(containsKey params "time") || validate_time (dictGet params "time")) &&
    ep.required.all (fun p => (dictGet params p).isSome) &&
    (ep.xor.isEmpty || (ep.xor.countP (fun p => (dictGet params p).isSome) == 1)) &&
    params.all (fun kv => (ep.required ++ ep.xor ++ ep.optional).contains kv.1)

/-! ### Client state

`iRail.__init__` plus the pieces of mutable state the orchestration
touches.  An aiohttp `ClientSession` is reduced to its `closed` flag
and an identity tag; the response cache is an association list keyed by
cache-key strings. -/

/-- An aiohttp `ClientSession`: only its `closed` flag and an identity
tag are relevant to the client logic. -/
structure Session where
  closed : Bool
  sid : Nat
deriving DecidableEq

/-- A cached API response (`CacheEntry`): ETag, parsed body, creation
time.  A parsed JSON body is an association list of string pairs. -/
structure CacheEntry where
  etag : String
  data : List (String × String)
  timestamp : Rat
deriving DecidableEq

/-- Parsed JSON body. -/
abbrev Body := List (String × String)

/-- `CacheEntry.is_expired`. -/
def is_expired (e : CacheEntry) (max_age_seconds now : Rat) : Bool :=
  now - e.timestamp > max_age_seconds

/-- The mutable state of an `iRail` instance. -/
structure ClientState where
  lang : String
  tokens : Int
  burst_tokens : Int
  last_request_time : Rat
  session : Option Session
  owns_session : Bool
  response_cache : List (String × CacheEntry)
  cache_max_age : Rat
deriving DecidableEq

/-- The `lang` property setter: invalid values silently become "en". -/
def normLang (value : String) : String :=
  if value = "nl" ∨ value = "fr" ∨ value = "en" ∨ value = "de" then value else "en"

/-- `iRail.__init__` at wall-clock time `now`. -/
def initClient (lang : String) (session : Option Session) (now : Rat) : ClientState :=
  { lang := normLang lang
    tokens := 3
    burst_tokens := 5
    last_request_time := now
    session := session
    owns_session := session.isNone
    response_cache := []
    cache_max_age := 3600 }

/-- `iRail.__aenter__` at the model level: a session that is present
(open or closed) is kept as is; only a missing session is replaced by a
fresh one.  The second component records whether a new session was
created. -/
def aenter (fresh : Session) (st : ClientState) : ClientState × Bool :=
  if (match st.session with | some s => !s.closed | none => false) then (st, false)
  else if st.session.isNone then ({ st with session := some fresh }, true)
  else (st, false)

/-- `iRail.__aexit__`: returns whether `session.close()` was awaited.
No close happens without a session, on an already-closed session, or on
a borrowed (externally supplied) session. -/
def aexit (st : ClientState) : Bool :=
  match st.session with
  | none => false
  | some s => if s.closed then false else if !st.owns_session then false else true

/-- `iRail.set_cache_max_age`: the second component is the message of
the `ValueError` raised for a non-positive argument; on the error path
the state is returned untouched because the assignment is never
reenacted. -/
def set_cache_max_age (st : ClientState) (max_age_seconds : Rat) :
    ClientState × Option String :=
  if max_age_seconds ≤ 0 then (st, some "Cache max age must be positive")
  else ({ st with cache_max_age := max_age_seconds }, none)

/-! ### Rate limiter (`_refill_tokens`, `_handle_rate_limit`) -/

/-- `iRail._refill_tokens` at wall-clock time `now`: steady tokens grow
by `int(elapsed * 3)` capped at 3; burst tokens grow by the same amount
capped at 5, but only when the updated steady count sits at its cap. -/
def refill_tokens (st : ClientState) (now : Rat) : ClientState :=
  let elapsed := now - st.last_request_time
  let tokens' := min 3 (st.tokens + pyInt (elapsed * 3))
  { st with
    last_request_time := now
    tokens := tokens'
    burst_tokens :=
      if tokens' = 3 then min 5 (st.burst_tokens + pyInt (elapsed * 3))
      else st.burst_tokens }

/-- `iRail._handle_rate_limit` at wall-clock time `now`.  The second
component is the duration of the `asyncio.sleep` performed, if any; the
post-sleep `_refill_tokens` call runs at time `now + wait`. -/
def handle_rate_limit (st : ClientState) (now : Rat) : ClientState × Option Rat :=
  let st1 := refill_tokens st now
  if st1.tokens < 1 then
    if st1.burst_tokens ≥ 1 then
      ({ st1 with burst_tokens := st1.burst_tokens - 1 }, none)
    else
      let wait := max 0 (1 - (now - st1.last_request_time))
      let st2 := refill_tokens st1 (now + wait)
      ({ st2 with tokens := st2.tokens - 1 }, some wait)
  else
    ({ st1 with tokens := st1.tokens - 1 }, none)

/-! ### SHA-256 (`hashlib.sha256(...).hexdigest()`)

`_generate_cache_key` hashes its key string with SHA-256 and keeps the
first 16 hex characters.  The hash itself lives in Python's `hashlib`;
it is embedded here in full (FIPS 180-4) over `Nat` with explicit
`% 2 ^ 32` reductions, operating on the UTF-8 bytes of the input. -/

/-- UTF-8 encoding of one code point (Python `str.encode()`). -/
def utf8Char (c : Char) : List Nat :=
  let n := c.toNat
  if n < 128 then [n]
  else if n < 2048 then [192 + n / 64, 128 + n % 64]
  else if n < 65536 then [224 + n / 4096, 128 + n / 64 % 64, 128 + n % 64]
  else [240 + n / 262144, 128 + n / 4096 % 64, 128 + n / 64 % 64, 128 + n % 64]

/-- UTF-8 encoding of a string as a byte list. -/
def utf8Encode (s : String) : List Nat :=
  s.data.foldr (fun c acc => utf8Char c ++ acc) []

/-- Word size of SHA-256 arithmetic. -/
def w32 : Nat := 4294967296

/-- Addition modulo `2 ^ 32`. -/
def add32 (a b : Nat) : Nat := (a + b) % w32

/-- Right rotation of a 32-bit word. -/
def rotr32 (n x : Nat) : Nat := ((x >>> n) + ((x % (1 <<< n)) <<< (32 - n))) % w32

/-- Bitwise complement of a 32-bit word. -/
def not32 (x : Nat) : Nat := x ^^^ (w32 - 1)

/-- SHA-256 `Ch` function. -/
def shaCh (x y z : Nat) : Nat := (x &&& y) ^^^ (not32 x &&& z)

/-- SHA-256 `Maj` function. -/
def shaMaj (x y z : Nat) : Nat := (x &&& y) ^^^ (x &&& z) ^^^ (y &&& z)

/-- SHA-256 big sigma 0. -/
def bigSigma0 (x : Nat) : Nat := rotr32 2 x ^^^ rotr32 13 x ^^^ rotr32 22 x

/-- SHA-256 big sigma 1. -/
def bigSigma1 (x : Nat) : Nat := rotr32 6 x ^^^ rotr32 11 x ^^^ rotr32 25 x

/-- SHA-256 small sigma 0. -/
def smallSigma0 (x : Nat) : Nat := rotr32 7 x ^^^ rotr32 18 x ^^^ (x >>> 3)

/-- SHA-256 small sigma 1. -/
def smallSigma1 (x : Nat) : Nat := rotr32 17 x ^^^ rotr32 19 x ^^^ (x >>> 10)

/-- The 64 SHA-256 round constants. -/
def shaK : List Nat :=
  [1116352408, 1899447441, 3049323471, 3921009573, 961987163, 1508970993,
   2453635748, 2870763221, 3624381080, 310598401, 607225278, 1426881987,
   1925078388, 2162078206, 2614888103, 3248222580, 3835390401, 4022224774,
   264347078, 604807628, 770255983, 1249150122, 1555081692, 1996064986,
   2554220882, 2821834349, 2952996808, 3210313671, 3336571891, 3584528711,
   113926993, 338241895, 666307205, 773529912, 1294757372, 1396182291,
   1695183700, 1986661051, 2177026350, 2456956037, 2730485921, 2820302411,
   3259730800, 3345764771, 3516065817, 3600352804, 4094571909, 275423344,
   430227734, 506948616, 659060556, 883997877, 958139571, 1322822218,
   1537002063, 1747873779, 1955562222, 2024104815, 2227730452, 2361852424,
   2428436474, 2756734187, 3204031479, 3329325298]

/-- A SHA-256 chaining state: eight 32-bit words. -/
structure Sha256State where
  a : Nat
  b : Nat
  c : Nat
  d : Nat
  e : Nat
  f : Nat
  g : Nat
  h : Nat
deriving DecidableEq

/-- The SHA-256 initial hash value. -/
def shaInit : Sha256State :=
  ⟨1779033703, 3144134277, 1013904242, 2773480762,
   1359893119, 2600822924, 528734635, 1541459225⟩

/-- One compression round; `kw` is the round constant already added to
the schedule word modulo `2 ^ 32`. -/
def shaRound (s : Sha256State) (kw : Nat) : Sha256State :=
  let t1 := add32 s.h (add32 (bigSigma1 s.e) (add32 (shaCh s.e s.f s.g) kw))
  let t2 := add32 (bigSigma0 s.a) (shaMaj s.a s.b s.c)
  ⟨add32 t1 t2, s.a, s.b, s.c, add32 s.d t1, s.e, s.f, s.g⟩

/-- Big-endian assembly of 4-byte groups into 32-bit words. -/
def bytesToWords : List Nat → List Nat
  | a :: b :: c :: d :: rest =>
    (a * 16777216 + b * 65536 + c * 256 + d) :: bytesToWords rest
  | _ => []

/-- Message-schedule extension: appends `n` further schedule words. -/
def buildSchedule (ws : List Nat) : Nat → List Nat
  | 0 => ws
  | n+1 =>
    let i := ws.length
    let next := add32 (add32 (smallSigma1 (ws.getD (i-2) 0)) (ws.getD (i-7) 0))
      (add32 (smallSigma0 (ws.getD (i-15) 0)) (ws.getD (i-16) 0))
    buildSchedule (ws ++ [next]) n

/-- Compression of one 64-byte block into the chaining state. -/
def processBlock (st : Sha256State) (block : List Nat) : Sha256State :=
  let ws := buildSchedule (bytesToWords block) 48
  let r := (List.zipWith add32 shaK ws).foldl shaRound st
  ⟨add32 st.a r.a, add32 st.b r.b, add32 st.c r.c, add32 st.d r.d,
   add32 st.e r.e, add32 st.f r.f, add32 st.g r.g, add32 st.h r.h⟩

/-- Big-endian byte representation of a `Nat` in `n` bytes. -/
def beBytes : Nat → Nat → List Nat
  | 0, _ => []
  | n+1, v => v / (256 ^ n) % 256 :: beBytes n v

/-- SHA-256 padding: `0x80`, zeros to 56 mod 64, 8-byte bit length. -/
def padMessage (msg : List Nat) : List Nat :=
  let padLen := (55 + 64 - msg.length % 64) % 64
  msg ++ [128] ++ List.replicate padLen 0 ++ beBytes 8 (msg.length * 8)

/-- Splitting the padded message into 64-byte blocks. -/
def toBlocks (l : List Nat) : List (List Nat) :=
  if l.isEmpty then [] else l.take 64 :: toBlocks (l.drop 64)
termination_by l.length
decreasing_by
  rename_i h
  rw [List.isEmpty_iff] at h
  have hp : 0 < l.length := List.length_pos.mpr h
  simp only [List.length_drop]
  omega

/-- The SHA-256 digest of a byte string, as a chaining state. -/
def sha256Digest (msg : List Nat) : Sha256State :=
  (toBlocks (padMessage msg)).foldl processBlock shaInit

/-- Lower-case hex digit of the low nibble of `x`. -/
def hexDigit (x : Nat) : Char :=
  let n := x % 16
  if n < 10 then Char.ofNat (48 + n) else Char.ofNat (87 + n)

/-- Eight hex characters of one 32-bit word, most significant first. -/
def hex4 (w : Nat) : List Char :=
  [hexDigit (w >>> 28), hexDigit (w >>> 24), hexDigit (w >>> 20),
   hexDigit (w >>> 16), hexDigit (w >>> 12), hexDigit (w >>> 8),
   hexDigit (w >>> 4), hexDigit w]

/-- The 64 characters of `hashlib.sha256(msg).hexdigest()`. -/
def sha256HexChars (msg : List Nat) : List Char :=
  let d := sha256Digest msg
  hex4 d.a ++ hex4 d.b ++ hex4 d.c ++ hex4 d.d ++
  hex4 d.e ++ hex4 d.f ++ hex4 d.g ++ hex4 d.h

/-! ### Cache keys (`_generate_cache_key`) and the response cache -/

/-- Python string interpolation of a parameter value. -/
def pyStrOfValue : Option String → String
  | some s => s
  | none => "None"

/-- Python `sorted(args.items())`, a stable sort.  Tuples compare by
first component first; dict keys are distinct, so the value components
never get compared and ordering by key alone is faithful. -/
def sortArgs (args : Params) : Params :=
  List.insertionSort (fun a b => a.1 ≤ b.1) args

/-- Python `"|".join(parts)`. -/
def joinBar : List String → String
  | [] => ""
  | [s] => s
  | s :: t :: rest => s ++ "|" ++ joinBar (t :: rest)

/-- The key string hashed by `_generate_cache_key`: method, language,
then `k=v` for the sorted arguments (skipped entirely for an empty or
missing argument dict), joined with `|`. -/
def cache_key_source (lang method : String) (args : Params) : String :=
  joinBar ([method, lang] ++
    (if args.isEmpty then []
     else (sortArgs args).map (fun kv => kv.1 ++ "=" ++ pyStrOfValue kv.2)))

/-- `iRail._generate_cache_key`: first 16 hex characters of the SHA-256
digest of the key string. -/
def generate_cache_key (lang method : String) (args : Params) : String :=
  ⟨(sha256HexChars (utf8Encode (cache_key_source lang method args))).take 16⟩

/-- Cache lookup (`cache_key in self.response_cache` plus access). -/
def cacheLookup : List (String × CacheEntry) → String → Option CacheEntry
  | [], _ => none
  | (k, e) :: rest, key => if k = key then some e else cacheLookup rest key

/-- Dict assignment `self.response_cache[key] = entry`. -/
def cacheInsert : List (String × CacheEntry) → String → CacheEntry →
    List (String × CacheEntry)
  | [], key, entry => [(key, entry)]
  | (k, e) :: rest, key, entry =>
    if k = key then (k, entry) :: rest else (k, e) :: cacheInsert rest key entry

/-- Dict deletion `del self.response_cache[key]`. -/
def cacheErase (c : List (String × CacheEntry)) (key : String) :
    List (String × CacheEntry) :=
  c.filter (fun kv => kv.1 ≠ key)

/-- `iRail._cleanup_expired_cache_entries` at time `now`. -/
def cleanup_expired_cache_entries (st : ClientState) (now : Rat) : ClientState :=
  { st with response_cache :=
      st.response_cache.filter (fun kv => !is_expired kv.2 st.cache_max_age now) }

/-- `iRail._add_etag_header` at time `now`: purge expired entries, then
return the `If-None-Match` value for a live entry (the fixed User-Agent
header is not modelled).  The branch deleting an expired entry is dead
after the cleanup but embedded faithfully. -/
def add_etag_header (cache_key : String) (st : ClientState) (now : Rat) :
    ClientState × Option String :=
  let st1 := cleanup_expired_cache_entries st now
  match cacheLookup st1.response_cache cache_key with
  | some entry =>
    if !is_expired entry st1.cache_max_age now then (st1, some entry.etag)
    else ({ st1 with response_cache := cacheErase st1.response_cache cache_key }, none)
  | none => (st1, none)

/-! ### Response handling and the request loop

An HTTP response is reduced to the fields `_handle_response` inspects:
status, the parsed `Retry-After` integer, the `Etag` header (aiohttp
header lookups are case-insensitive) and the JSON body, where `none`
models both a body that fails to parse (`ValueError`) and JSON `null`.
A transport step either yields a response or raises `ClientError`. -/

/-- An HTTP response as seen by `_handle_response`. -/
structure ApiResponse where
  status : Nat
  retryAfter : Option Int
  etag : Option String
  body : Option Body
deriving DecidableEq

/-- Outcome of one `session.get`: a response, or an aiohttp
`ClientError` (connection failure, timeout). -/
inductive Transport where
  | ok (resp : ApiResponse)
  | netError
deriving DecidableEq

/-- `iRail._handle_success_response` at time `now`: an unparsable body
yields `None`; an empty (falsy) body is returned unchanged without
caching; otherwise the response is cached exactly when an `Etag` header
is present, stamped with the current time. -/
def handle_success_response (resp : ApiResponse) (cache_key : String)
    (st : ClientState) (now : Rat) : Option Body × ClientState :=
  match resp.body with
  | none => (none, st)
  | some b =>
    if b.isEmpty then (some b, st)
    else
      match resp.etag with
      | some e =>
        let st' := { st with
          response_cache := cacheInsert st.response_cache cache_key ⟨e, b, now⟩ }
        (some b, st')
      | none => (some b, st)

/-- The 304 branch of `iRail._handle_response` at time `now`: return
the cached payload when a live entry exists; evict and fail on an
expired entry; fail when no entry exists. -/
def handle_not_modified (cache_key : String) (st : ClientState) (now : Rat) :
    Option Body × ClientState :=
  match cacheLookup st.response_cache cache_key with
  | some entry =>
    if !is_expired entry st.cache_max_age now then (some entry.data, st)
    else (none, { st with response_cache := cacheErase st.response_cache cache_key })
  | none => (none, st)

/-- Outcome of a `_do_request` run.  `result = some r` is a Python
return with value `r`; `result = none` marks model fuel running out
while the code is still recursing through 429 retries.  `sends` counts
HTTP GETs issued, `sleeps` lists every `asyncio.sleep` duration in
order. -/
structure RunResult where
  result : Option (Option Body)
  state : ClientState
  sends : Nat
  sleeps : List Rat
deriving DecidableEq

/-- `iRail._do_request` driven by an environment: `oracle i` is the
transport outcome of the `i`-th GET overall and `times i` the wall
clock at which attempt `i` runs; `sends0` is the index of the next GET.
Mirrors the source order: session check, validation, rate limit under
the lock, cache-key generation, conditional header, GET, then
status-driven handling where 429 sleeps `Retry-After` (default 1) and
re-issues the same request recursively. -/
def do_request (fuel : Nat) (oracle : Nat → Transport) (times : Nat → Rat)
    (method : String) (args : Params) (st : ClientState) (sends0 : Nat) : RunResult :=
  match fuel with
  | 0 => { result := none, state := st, sends := sends0, sleeps := [] }
  | fuel' + 1 =>
    if st.session.isNone then
      { result := some none, state := st, sends := sends0, sleeps := [] }
    else if !validate_params method args then
      { result := some none, state := st, sends := sends0, sleeps := [] }
    else
      let now := times sends0
      let rl := handle_rate_limit st now
      let rlSleeps := match rl.2 with | some w => [w] | none => []
      let cache_key := generate_cache_key rl.1.lang method args
      let ae := add_etag_header cache_key rl.1 now
      match oracle sends0 with
      | .netError =>
        { result := some none, state := ae.1, sends := sends0 + 1, sleeps := rlSleeps }
      | .ok resp =>
        if resp.status = 429 then
          let ra : Int := resp.retryAfter.getD 1
          let retried := do_request fuel' oracle times method args ae.1 (sends0 + 1)
          { result := retried.result, state := retried.state, sends := retried.sends,
            sleeps := rlSleeps ++ (ra : Rat) :: retried.sleeps }
        else if resp.status = 400 then
          { result := some none, state := ae.1, sends := sends0 + 1, sleeps := rlSleeps }
        else if resp.status = 404 then
          { result := some none, state := ae.1, sends := sends0 + 1, sleeps := rlSleeps }
        else if resp.status = 200 then
          let hs := handle_success_response resp cache_key ae.1 now
          { result := some hs.1, state := hs.2, sends := sends0 + 1, sleeps := rlSleeps }
        else if resp.status = 304 then
          let hn := handle_not_modified cache_key ae.1 now
          { result := some hn.1, state := hn.2, sends := sends0 + 1, sleeps := rlSleeps }
        else
          { result := some none, state := ae.1, sends := sends0 + 1, sleeps := rlSleeps }

/-! ### Specification-side predicates and run harnesses

Definitions below this point are not translations of the source: they
render sentences of the specification (for refinement comparisons) or
set up concrete environments in which the source model is run. -/

/-- A parameter that is present with a non-`None` value. -/
def presentNonNull (ps : Params) (p : String) : Prop :=
  ∃ v : String, lookupParam ps p = some (some v)

/-- Validity as the claim states it: known endpoint, all required
parameters present and non-null, exactly one xor member present and
non-null when the group is non-empty, no unexpected key, and every
present `date` (`time`) parameter parses as DDMMYY (HHMM). -/
def claimValidParams (method : String) (ps : Params) : Prop :=
  ∃ ep, lookupEndpoint method = some ep ∧
    (∀ p ∈ ep.required, presentNonNull ps p) ∧
    (ep.xor ≠ [] → ∃! p, p ∈ ep.xor ∧ presentNonNull ps p) ∧
    (∀ kv ∈ ps, kv.1 ∈ ep.required ∨ kv.1 ∈ ep.xor ∨ kv.1 ∈ ep.optional) ∧
    (∀ s, lookupParam ps "date" = some (some s) → strptimeDDMMYY s = true) ∧
    (∀ s, lookupParam ps "time" = some (some s) → strptimeHHMM s = true)

/-- Validity as amended: like `claimValidParams`, except that an empty
string supplied for `date` or `time` is exempted from format checking
(Python falsiness treats it like an absent value). -/
def amendedValidParams (method : String) (ps : Params) : Prop :=
  ∃ ep, lookupEndpoint method = some ep ∧
    (∀ p ∈ ep.required, presentNonNull ps p) ∧
    (ep.xor ≠ [] → ∃! p, p ∈ ep.xor ∧ presentNonNull ps p) ∧
    (∀ kv ∈ ps, kv.1 ∈ ep.required ∨ kv.1 ∈ ep.xor ∨ kv.1 ∈ ep.optional) ∧
    (∀ s, lookupParam ps "date" = some (some s) → s ≠ "" → strptimeDDMMYY s = true) ∧
    (∀ s, lookupParam ps "time" = some (some s) → s ≠ "" → strptimeHHMM s = true)

/-- Steady-token value after a refill as the claim states it: increase
by `elapsed * 3` (no truncation), capped at 3. -/
def claimSteadyTokens (tokens : Int) (elapsed : Rat) : Rat :=
  min 3 ((tokens : Rat) + elapsed * 3)

/-- n successive rate-limit acquisitions, all at wall-clock time 0 (the
construction time), collecting each acquisition's sleep. -/
def acquireRun : Nat → ClientState → ClientState × List (Option Rat)
  | 0, st => (st, [])
  | n+1, st =>
    let p := handle_rate_limit st 0
    let q := acquireRun n p.1
    (q.1, p.2 :: q.2)

/-- An open session supplied from outside. -/
def openSession : Session := ⟨false, 0⟩

/-- A client constructed at time 0 with an external open session. -/
def readyClient : ClientState := initClient "en" (some openSession) 0

/-- A 429 response carrying the given parsed `Retry-After` value. -/
def resp429 (ra : Option Int) : ApiResponse :=
  { status := 429, retryAfter := ra, etag := none, body := none }

/-- A plain 200 response with a non-empty body and no ETag. -/
def resp200 : ApiResponse :=
  { status := 200, retryAfter := none, etag := none, body := some [("ok", "1")] }

/-- A server that answers 429 with `Retry-After: 1` forever. -/
def oracle429 : Nat → Transport := fun _ => .ok (resp429 (some 1))

/-- A server that answers one 429 and then succeeds. -/
def oracle429then (ra : Option Int) : Nat → Transport :=
  fun i => if i = 0 then .ok (resp429 ra) else .ok resp200

/-- A transport whose first attempt raises `ClientError` and whose
later attempts would succeed. -/
def oracleNetThen200 : Nat → Transport :=
  fun i => if i = 0 then .netError else .ok resp200

/-- A server that always succeeds. -/
def oracle200 : Nat → Transport := fun _ => .ok resp200

/-- Number of GETs issued against the always-429 server when the model
grants `fuel` recursion steps. -/
def sends429 (fuel : Nat) : Nat :=
  (do_request fuel oracle429 (fun _ => 0) "stations" [] readyClient 0).sends

/-- The method name made of `n` letters `a` (used to exhibit hash-key
collisions between distinct endpoint names). -/
def aString (n : Nat) : String := ⟨List.replicate n 'a'⟩

/-- A 200 response carrying a validator and a non-empty body. -/
def respEtagged : ApiResponse :=
  { status := 200, retryAfter := none, etag := some "W/1", body := some [("a", "b")] }

/-- A 200 response carrying a validator but an empty (falsy) body. -/
def respEmptyEtag : ApiResponse :=
  { status := 200, retryAfter := none, etag := some "W/1", body := some [] }

/-- The characters a key string carries after `method|lang`: nothing
for an empty argument dict, else `|` and the joined `k=v` parts. -/
def argsTailChars (args : Params) : List Char :=
  if args.isEmpty then []
  else '|' :: (joinBar ((sortArgs args).map (fun kv => kv.1 ++ "=" ++ pyStrOfValue kv.2))).data

instance : IsTotal (String × Option String) (fun a b => a.1 ≤ b.1) :=
  ⟨fun a b => le_total a.1 b.1⟩

instance : IsTrans (String × Option String) (fun a b => a.1 ≤ b.1) :=
  ⟨fun _ _ _ h1 h2 => le_trans h1 h2⟩

instance : IsAntisymm (String × Option String) (fun a b => a.1 < b.1) :=
  ⟨fun _ _ h1 h2 => absurd h2 (lt_asymm h1)⟩

/-! ## Theorems -/

theorem pyInt_eq_floor {q : Rat} (h : 0 ≤ q) : pyInt q = ⌊q⌋ := by
  simp [pyInt, h]

theorem pyInt_zero : pyInt 0 = 0 := by simp [pyInt]

/-- C9: setting the cache max age to a non-positive value raises the
`ValueError` and leaves the state untouched; a positive value is stored
without raising; construction defaults the max age to 3600 seconds. -/
theorem c9_set_cache_max_age :
    (∀ (st : ClientState) (v : Rat), v ≤ 0 →
        set_cache_max_age st v = (st, some "Cache max age must be positive")) ∧
    (∀ (st : ClientState) (v : Rat), 0 < v →
        (set_cache_max_age st v).2 = none ∧
        (set_cache_max_age st v).1.cache_max_age = v ∧
        (set_cache_max_age st v).1.response_cache = st.response_cache) ∧
    (∀ lang session now, (initClient lang session now).cache_max_age = 3600) := by
  refine ⟨?_, ?_, ?_⟩
  · intro st v h
    simp [set_cache_max_age, h]
  · intro st v h
    simp [set_cache_max_age, not_le.mpr h]
  · intro lang session now
    rfl

/-- Witness for C9 at the concrete arguments `-1` and `60`. -/
theorem c9_set_cache_max_age_witness :
    ((-1 : Rat) ≤ 0 ∧
      set_cache_max_age readyClient (-1)
        = (readyClient, some "Cache max age must be positive")) ∧
    ((0 : Rat) < 60 ∧ (set_cache_max_age readyClient 60).2 = none ∧
      (set_cache_max_age readyClient 60).1.cache_max_age = 60) :=
  ⟨⟨by norm_num, c9_set_cache_max_age.1 readyClient (-1) (by norm_num)⟩,
   ⟨by norm_num, (c9_set_cache_max_age.2.1 readyClient 60 (by norm_num)).1,
     (c9_set_cache_max_age.2.1 readyClient 60 (by norm_num)).2.1⟩⟩

/-- C5: from a freshly constructed client, eight back-to-back
acquisitions all pass without sleeping, the first three consume the
steady tokens while the burst bucket stays full, the next five drain
the burst bucket, and the ninth acquisition sleeps for a full second
and only proceeds after the post-sleep refill. -/
theorem c5_rate_limiter_burst :
    (acquireRun 8 (initClient "en" none 0)).2
        = [none, none, none, none, none, none, none, none] ∧
    (acquireRun 3 (initClient "en" none 0)).1.tokens = 0 ∧
    (acquireRun 3 (initClient "en" none 0)).1.burst_tokens = 5 ∧
    (acquireRun 8 (initClient "en" none 0)).1.tokens = 0 ∧
    (acquireRun 8 (initClient "en" none 0)).1.burst_tokens = 0 ∧
    (handle_rate_limit (acquireRun 8 (initClient "en" none 0)).1 0).2 = some 1 ∧
    (handle_rate_limit (acquireRun 8 (initClient "en" none 0)).1 0).1.tokens = 2 := by
  norm_num [acquireRun, handle_rate_limit, refill_tokens, pyInt, initClient, normLang]

/-- C4 counterexample: with zero steady tokens and a half-second of
elapsed time, the code refills to `min 3 (0 + int(1.5)) = 1` steady
token, while the claim's un-truncated `elapsed * 3` predicts `1.5`. -/
theorem c4_refill_counterexample :
    ¬ (((refill_tokens { initClient "en" none 0 with tokens := 0 } (1/2)).tokens : Rat)
        = claimSteadyTokens ({ initClient "en" none 0 with tokens := 0 } : ClientState).tokens
            ((1/2 : Rat) - ({ initClient "en" none 0 with
              tokens := 0 } : ClientState).last_request_time)) := by
  have h1 : ((1:Rat)/2 - 0) * 3 = 3/2 := by norm_num
  have h2 : (⌊(3:Rat)/2⌋ : Int) = 1 := by
    rw [Int.floor_eq_iff]
    norm_num
  norm_num [refill_tokens, claimSteadyTokens, pyInt, initClient, normLang, h1, h2]

/-- C4 as amended: on a refill with non-negative elapsed time, steady
tokens become `min 3 (tokens + ⌊elapsed * 3⌋)` (truncating refill),
burst tokens grow by the same truncated amount capped at 5 exactly when
the updated steady count is at its cap, and the last-refill timestamp
becomes `now`. -/
theorem c4_refill_truncated (st : ClientState) (now : Rat)
    (h : st.last_request_time ≤ now) :
    (refill_tokens st now).tokens
        = min 3 (st.tokens + ⌊(now - st.last_request_time) * 3⌋) ∧
    (refill_tokens st now).burst_tokens
        = (if min 3 (st.tokens + ⌊(now - st.last_request_time) * 3⌋) = 3
           then min 5 (st.burst_tokens + ⌊(now - st.last_request_time) * 3⌋)
           else st.burst_tokens) ∧
    (refill_tokens st now).last_request_time = now := by
  have h0 : (0:Rat) ≤ (now - st.last_request_time) * 3 :=
    mul_nonneg (sub_nonneg.mpr h) (by norm_num)
  refine ⟨?_, ?_, ?_⟩ <;> simp [refill_tokens, pyInt_eq_floor h0]

/-- Witness for C4 at the concrete state with zero tokens and a
half-second of elapsed time. -/
theorem c4_refill_truncated_witness :
    (({ initClient "en" none 0 with tokens := 0 } : ClientState).last_request_time
        ≤ (1/2 : Rat)) ∧
    (refill_tokens { initClient "en" none 0 with tokens := 0 } (1/2)).tokens
      = min 3 (({ initClient "en" none 0 with tokens := 0 } : ClientState).tokens
          + ⌊((1/2 : Rat) - ({ initClient "en" none 0 with
              tokens := 0 } : ClientState).last_request_time) * 3⌋) := by
  constructor
  · norm_num [initClient]
  · exact (c4_refill_truncated { initClient "en" none 0 with tokens := 0 } (1/2)
      (by norm_num [initClient])).1

theorem cacheLookup_insert (c : List (String × CacheEntry)) (k : String) (e : CacheEntry) :
    cacheLookup (cacheInsert c k e) k = some e := by
  induction c with
  | nil => simp [cacheInsert, cacheLookup]
  | cons kv rest ih =>
    rcases kv with ⟨k', e'⟩
    by_cases h : k' = k <;> simp [cacheInsert, cacheLookup, h, ih]

/-- C7 counterexample: a 200 response with validator `W/1` but an
empty (falsy) body is returned to the caller, yet no cache entry is
inserted, contradicting the claimed "cached iff a validator header is
present". -/
theorem c7_success_counterexample :
    respEmptyEtag.etag = some "W/1" ∧
    handle_success_response respEmptyEtag "k" readyClient 0
      = (some [], readyClient) :=
  ⟨rfl, rfl⟩

/-- C7 as amended: for a 200 response whose body parses, the parsed
body is always returned (an empty body included); the cache entry
keyed by the request fingerprint, carrying the response validator and
the current time, is inserted or replaced exactly when the response
carries a validator AND the body is non-empty; an absent validator or
an empty body leaves the state untouched. -/
theorem c7_success_caching (resp : ApiResponse) (k : String) (st : ClientState)
    (now : Rat) (b : Body) (hb : resp.body = some b) :
    (handle_success_response resp k st now).1 = some b ∧
    (∀ e, resp.etag = some e → b ≠ [] →
        (handle_success_response resp k st now).2.response_cache
          = cacheInsert st.response_cache k ⟨e, b, now⟩) ∧
    (resp.etag = none ∨ b = [] → (handle_success_response resp k st now).2 = st) := by
  cases b with
  | nil => simp [handle_success_response, hb]
  | cons x xs =>
    cases he : resp.etag with
    | none => simp [handle_success_response, hb, he]
    | some e => simp [handle_success_response, hb, he]

/-- Witness for C7 at a concrete ETag-carrying response. -/
theorem c7_success_caching_witness :
    respEtagged.body = some [("a", "b")] ∧
    respEtagged.etag = some "W/1" ∧ ([("a", "b")] : Body) ≠ [] ∧
    (handle_success_response respEtagged "k" readyClient 5).2.response_cache
      = cacheInsert readyClient.response_cache "k" ⟨"W/1", [("a", "b")], 5⟩ :=
  ⟨rfl, rfl, by decide,
    (c7_success_caching respEtagged "k" readyClient 5 [("a", "b")] rfl).2.1
      "W/1" rfl (by decide)⟩

/-- C8: on a 304, a live cache entry's payload is returned with the
state untouched; an expired entry is evicted and the result is absent;
a missing entry yields an absent result; and the payload returned for
an unexpired entry written by an earlier 200 is that response's body.
All paths return normally; no exception propagates. -/
theorem c8_not_modified_cases :
    (∀ k (st : ClientState) (now : Rat) entry,
        cacheLookup st.response_cache k = some entry →
        (now - entry.timestamp ≤ st.cache_max_age →
            handle_not_modified k st now = (some entry.data, st)) ∧
        (st.cache_max_age < now - entry.timestamp →
            (handle_not_modified k st now).1 = none ∧
            (handle_not_modified k st now).2.response_cache
              = cacheErase st.response_cache k)) ∧
    (∀ k (st : ClientState) (now : Rat),
        cacheLookup st.response_cache k = none →
        handle_not_modified k st now = (none, st)) ∧
    (∀ (resp : ApiResponse) k (st : ClientState) (t1 t2 : Rat) (b : Body) e,
        resp.body = some b → b ≠ [] → resp.etag = some e →
        t2 - t1 ≤ st.cache_max_age →
        (handle_not_modified k (handle_success_response resp k st t1).2 t2).1
          = some b) := by
  refine ⟨?_, ?_, ?_⟩
  · intro k st now entry hl
    constructor
    · intro hlive
      simp [handle_not_modified, hl, is_expired, not_lt.mpr hlive]
    · intro hexp
      simp [handle_not_modified, hl, is_expired, hexp]
  · intro k st now hl
    simp [handle_not_modified, hl]
  · intro resp k st t1 t2 b e hb hne he hfresh
    cases b with
    | nil => exact absurd rfl hne
    | cons x xs =>
      simp only [handle_success_response, hb, he, List.isEmpty_cons, Bool.false_eq_true,
        if_false]
      simp [handle_not_modified, cacheLookup_insert, is_expired, not_lt.mpr hfresh]

/-- Witness for C8: a 200 with validator `W/1` populates the cache and
a later 304 within the expiry window returns the identical payload. -/
theorem c8_not_modified_cases_witness :
    respEtagged.body = some [("a", "b")] ∧ ([("a", "b")] : Body) ≠ [] ∧
    respEtagged.etag = some "W/1" ∧
    (10 : Rat) - 0 ≤ readyClient.cache_max_age ∧
    (handle_not_modified "k" (handle_success_response respEtagged "k" readyClient 0).2 10).1
      = some [("a", "b")] :=
  ⟨rfl, by decide, rfl, by norm_num [readyClient, initClient],
    c8_not_modified_cases.2.2 respEtagged "k" readyClient 0 10 [("a", "b")] "W/1"
      rfl (by decide) rfl (by norm_num [readyClient, initClient])⟩

theorem handle_rate_limit_session (st : ClientState) (now : Rat) :
    (handle_rate_limit st now).1.session = st.session := by
  simp only [handle_rate_limit, refill_tokens]
  split_ifs <;> rfl

theorem add_etag_header_session (ck : String) (st : ClientState) (now : Rat) :
    (add_etag_header ck st now).1.session = st.session := by
  unfold add_etag_header
  dsimp only
  split
  · split_ifs <;> rfl
  · rfl

theorem isNone_false_of_isSome {o : Option Session} (h : o.isSome = true) :
    o.isNone = false := by
  cases o
  · simp at h
  · rfl

theorem do_request_429_aux (fuel : Nat) :
    ∀ (st : ClientState) (sends0 : Nat), st.session.isSome →
      (do_request fuel oracle429 (fun _ => 0) "stations" [] st sends0).sends
          = sends0 + fuel ∧
      (do_request fuel oracle429 (fun _ => 0) "stations" [] st sends0).result = none := by
  induction fuel with
  | zero =>
    intro st sends0 _
    simp [do_request]
  | succ n ih =>
    intro st sends0 hs
    have hni : st.session.isNone = false := isNone_false_of_isSome hs
    have hv : validate_params "stations" [] = true := by decide
    have hsessrec : ((add_etag_header
        (generate_cache_key (handle_rate_limit st 0).1.lang "stations" [])
        (handle_rate_limit st 0).1 0).1).session = st.session := by
      rw [add_etag_header_session, handle_rate_limit_session]
    have hrec := ih ((add_etag_header
        (generate_cache_key (handle_rate_limit st 0).1.lang "stations" [])
        (handle_rate_limit st 0).1 0).1) (sends0 + 1) (by rw [hsessrec]; exact hs)
    constructor
    · simp [do_request, hni, hv, oracle429, resp429, hrec.1]
      omega
    · simp [do_request, hni, hv, oracle429, resp429, hrec.2]

/-- C1 counterexample: there is no ceiling on the number of 429-driven
retries — against a server that always answers 429, granting the
recursion `fuel` steps makes it issue `fuel` GETs without ever
returning, for every `fuel`. -/
theorem c1_bounded_retry_counterexample : ¬ ∃ B, ∀ fuel, sends429 fuel ≤ B := by
  rintro ⟨B, hB⟩
  have h1 := (do_request_429_aux (B + 1) readyClient 0 rfl).1
  have h2 := hB (B + 1)
  simp only [sends429] at h2
  omega

/-- C1 as amended: a 429 makes the orchestrator sleep for the parsed
`Retry-After` value (1 when the header is absent) and re-issue the same
request recursively, succeeding if the next answer is a 200 — but the
retry count is unbounded: under an always-429 server every recursion
budget is consumed with one GET per step and the loop never returns. -/
theorem c1_retry_after_resend :
    (∀ fuel, sends429 fuel = fuel ∧
      (do_request fuel oracle429 (fun _ => 0) "stations" [] readyClient 0).result = none) ∧
    (∀ ra : Int,
      (do_request 2 (oracle429then (some ra)) (fun _ => 0) "stations" [] readyClient 0).sleeps
          = [(ra : Rat)] ∧
      (do_request 2 (oracle429then (some ra)) (fun _ => 0) "stations" [] readyClient 0).sends
          = 2 ∧
      (do_request 2 (oracle429then (some ra)) (fun _ => 0) "stations" [] readyClient 0).result
          = some (some [("ok", "1")])) ∧
    ((do_request 2 (oracle429then none) (fun _ => 0) "stations" [] readyClient 0).sleeps
        = [(1 : Rat)]) := by
  have hv : validate_params "stations" [] = true := by decide
  refine ⟨?_, ?_, ?_⟩
  · intro fuel
    refine ⟨?_, (do_request_429_aux fuel readyClient 0 rfl).2⟩
    have := (do_request_429_aux fuel readyClient 0 rfl).1
    simp only [sends429]
    omega
  · intro ra
    norm_num [do_request, oracle429then, resp429, resp200, handle_rate_limit,
      refill_tokens, pyInt_zero, readyClient, initClient, normLang, add_etag_header,
      cleanup_expired_cache_entries, cacheLookup, is_expired, handle_success_response, hv]
  · norm_num [do_request, oracle429then, resp429, resp200, handle_rate_limit,
      refill_tokens, pyInt_zero, readyClient, initClient, normLang, add_etag_header,
      cleanup_expired_cache_entries, cacheLookup, is_expired, handle_success_response, hv]

/-- C2 as amended: the very first transport exception (`ClientError`)
makes `_do_request` return an absent result after exactly one GET; no
retry and no backoff happen at this layer (the exception still never
reaches the caller). -/
theorem c2_net_error_returns_none (fuel : Nat) (oracle : Nat → Transport)
    (times : Nat → Rat) (method : String) (args : Params) (st : ClientState)
    (sends0 : Nat) (hs : st.session.isSome = true)
    (hv : validate_params method args = true) (he : oracle sends0 = .netError) :
    (do_request (fuel + 1) oracle times method args st sends0).result = some none ∧
    (do_request (fuel + 1) oracle times method args st sends0).sends = sends0 + 1 := by
  have hni : st.session.isNone = false := isNone_false_of_isSome hs
  constructor <;> simp [do_request, hni, hv, he]

/-- Witness for C2 on a transport that fails once and would succeed
afterwards. -/
theorem c2_net_error_returns_none_witness :
    readyClient.session.isSome = true ∧
    validate_params "stations" [] = true ∧
    oracleNetThen200 0 = .netError ∧
    (do_request 5 oracleNetThen200 (fun _ => 0) "stations" [] readyClient 0).result
        = some none ∧
    (do_request 5 oracleNetThen200 (fun _ => 0) "stations" [] readyClient 0).sends
        = 0 + 1 :=
  ⟨rfl, by decide, rfl,
    (c2_net_error_returns_none 4 oracleNetThen200 (fun _ => 0) "stations" []
      readyClient 0 rfl (by decide) rfl).1,
    (c2_net_error_returns_none 4 oracleNetThen200 (fun _ => 0) "stations" []
      readyClient 0 rfl (by decide) rfl).2⟩

/-- C2 counterexample: with a transport that raises on the first GET
and would answer 200 on any further GET, the orchestrator stops after a
single send with an absent result — the claimed three-attempt
exponential backoff never issues a second GET. -/
theorem c2_backoff_counterexample :
    (do_request 5 oracleNetThen200 (fun _ => 0) "stations" [] readyClient 0).result
        = some none ∧
    (do_request 5 oracleNetThen200 (fun _ => 0) "stations" [] readyClient 0).sends = 1 ∧
    oracleNetThen200 1 = .ok resp200 := by
  have hv : validate_params "stations" [] = true := by decide
  refine ⟨?_, ?_, rfl⟩ <;>
    simp [do_request, oracleNetThen200, hv, readyClient, initClient, normLang]

/-- C10: entering the context with an externally supplied,
already-closed session keeps that session untouched (no replacement is
created), exiting performs no close, and a subsequent request still
proceeds to issue its GET on that closed session. -/
theorem c10_closed_external_session :
    (∀ lang (now : Rat) sid fresh,
        aenter fresh (initClient lang (some ⟨true, sid⟩) now)
          = (initClient lang (some ⟨true, sid⟩) now, false)) ∧
    (∀ lang (now : Rat) sid, aexit (initClient lang (some ⟨true, sid⟩) now) = false) ∧
    (∀ lang (now : Rat) sid,
        (do_request 1 oracle200 (fun _ => now) "stations" []
            (initClient lang (some ⟨true, sid⟩) now) 0).sends = 1 ∧
        (do_request 1 oracle200 (fun _ => now) "stations" []
            (initClient lang (some ⟨true, sid⟩) now) 0).result
          = some (some [("ok", "1")])) := by
  have hv : validate_params "stations" [] = true := by decide
  refine ⟨?_, ?_, ?_⟩
  · intro lang now sid fresh
    simp [aenter, initClient]
  · intro lang now sid
    simp [aexit, initClient]
  · intro lang now sid
    constructor <;>
      norm_num [do_request, oracle200, resp200, handle_rate_limit, refill_tokens,
        pyInt_zero, initClient, normLang, add_etag_header,
        cleanup_expired_cache_entries, cacheLookup, is_expired,
        handle_success_response, hv]

theorem dictGet_isSome_iff (ps : Params) (p : String) :
    (dictGet ps p).isSome = true ↔ presentNonNull ps p := by
  unfold dictGet presentNonNull
  cases h : lookupParam ps p with
  | none => simp
  | some v => cases v <;> simp

theorem date_check_iff (ps : Params) :
    ((!(containsKey ps "date") || validate_date (dictGet ps "date")) = true)
      ↔ (∀ s, lookupParam ps "date" = some (some s) → s ≠ "" → strptimeDDMMYY s = true) := by
  unfold containsKey dictGet validate_date
  cases h : lookupParam ps "date" with
  | none => simp
  | some v =>
    cases v with
    | none => simp
    | some s =>
      by_cases hs : s = ""
      · subst hs; simp
      · simp [hs]

theorem time_check_iff (ps : Params) :
    ((!(containsKey ps "time") || validate_time (dictGet ps "time")) = true)
      ↔ (∀ s, lookupParam ps "time" = some (some s) → s ≠ "" → strptimeHHMM s = true) := by
  unfold containsKey dictGet validate_time
  cases h : lookupParam ps "time" with
  | none => simp
  | some v =>
    cases v with
    | none => simp
    | some s =>
      by_cases hs : s = ""
      · subst hs; simp
      · simp [hs]

theorem required_all_iff (l : List String) (ps : Params) :
    (l.all (fun p => (dictGet ps p).isSome)) = true ↔ ∀ p ∈ l, presentNonNull ps p := by
  simp [List.all_eq_true, dictGet_isSome_iff]

theorem unexpected_iff (ep : EndpointSpec) (ps : Params) :
    (ps.all (fun kv => (ep.required ++ ep.xor ++ ep.optional).contains kv.1)) = true
      ↔ ∀ kv ∈ ps, kv.1 ∈ ep.required ∨ kv.1 ∈ ep.xor ∨ kv.1 ∈ ep.optional := by
  simp [List.all_eq_true, List.mem_append, or_assoc]

theorem xor_pair_iff (ps : Params) :
    ((List.countP (fun p => (dictGet ps p).isSome) ["station", "id"] == 1) = true)
      ↔ ∃! p, p ∈ (["station", "id"] : List String) ∧ presentNonNull ps p := by
  have hne : ("station" : String) ≠ "id" := by decide
  by_cases h1 : (dictGet ps "station").isSome = true <;>
    by_cases h2 : (dictGet ps "id").isSome = true
  · simp only [List.countP_cons, List.countP_nil, h1, h2, if_true]
    constructor
    · intro h
      simp at h
    · rintro ⟨p, ⟨-, -⟩, hu⟩
      have hs := hu "station" ⟨by simp, (dictGet_isSome_iff ps "station").mp h1⟩
      have hi := hu "id" ⟨by simp, (dictGet_isSome_iff ps "id").mp h2⟩
      exact absurd (hs.trans hi.symm) hne
  · simp only [List.countP_cons, List.countP_nil, h1, h2, if_true]
    constructor
    · intro _
      refine ⟨"station", ⟨by simp, (dictGet_isSome_iff ps "station").mp h1⟩, ?_⟩
      rintro q ⟨hql, hq⟩
      rcases (by simpa using hql : q = "station" ∨ q = "id") with rfl | rfl
      · rfl
      · exact absurd ((dictGet_isSome_iff ps "id").mpr hq) h2
    · intro _
      simp [h2]
  · simp only [List.countP_cons, List.countP_nil, h1, h2, if_true]
    constructor
    · intro _
      refine ⟨"id", ⟨by simp, (dictGet_isSome_iff ps "id").mp h2⟩, ?_⟩
      rintro q ⟨hql, hq⟩
      rcases (by simpa using hql : q = "station" ∨ q = "id") with rfl | rfl
      · exact absurd ((dictGet_isSome_iff ps "station").mpr hq) h1
      · rfl
    · intro _
      simp [h1]
  · simp only [List.countP_cons, List.countP_nil, h1, h2, if_true]
    constructor
    · intro h
      simp at h
    · rintro ⟨p, ⟨hpl, hp⟩, -⟩
      rcases (by simpa using hpl : p = "station" ∨ p = "id") with rfl | rfl
      · exact absurd ((dictGet_isSome_iff ps "station").mpr hp) h1
      · exact absurd ((dictGet_isSome_iff ps "id").mpr hp) h2

theorem c3_iff_stations (ps : Params) :
    validate_params "stations" ps = true ↔ amendedValidParams "stations" ps := by
  have hl : lookupEndpoint "stations" = some ⟨[], [], []⟩ := by decide
  simp only [validate_params, amendedValidParams, hl, Option.some.injEq, exists_eq_left',
    Bool.and_eq_true]
  rw [date_check_iff, time_check_iff, required_all_iff, unexpected_iff ⟨[], [], []⟩ ps]
  simp only [List.isEmpty_nil, Bool.true_or]
  tauto

theorem c3_iff_liveboard (ps : Params) :
    validate_params "liveboard" ps = true ↔ amendedValidParams "liveboard" ps := by
  have hl : lookupEndpoint "liveboard"
      = some ⟨[], ["station", "id"], ["date", "time", "arrdep", "alerts"]⟩ := by decide
  have hne : (["station", "id"] : List String) ≠ [] := by decide
  simp only [validate_params, amendedValidParams, hl, Option.some.injEq, exists_eq_left',
    Bool.and_eq_true]
  rw [date_check_iff, time_check_iff, required_all_iff,
    unexpected_iff ⟨[], ["station", "id"], ["date", "time", "arrdep", "alerts"]⟩ ps]
  simp only [List.isEmpty_cons, Bool.false_or]
  rw [xor_pair_iff]
  tauto

theorem c3_iff_connections (ps : Params) :
    validate_params "connections" ps = true ↔ amendedValidParams "connections" ps := by
  have hl : lookupEndpoint "connections"
      = some ⟨["from", "to"], [], ["date", "time", "timesel", "typeOfTransport"]⟩ := by decide
  simp only [validate_params, amendedValidParams, hl, Option.some.injEq, exists_eq_left',
    Bool.and_eq_true]
  rw [date_check_iff, time_check_iff, required_all_iff,
    unexpected_iff ⟨["from", "to"], [], ["date", "time", "timesel", "typeOfTransport"]⟩ ps]
  simp only [List.isEmpty_nil, Bool.true_or]
  tauto

theorem c3_iff_vehicle (ps : Params) :
    validate_params "vehicle" ps = true ↔ amendedValidParams "vehicle" ps := by
  have hl : lookupEndpoint "vehicle" = some ⟨["id"], [], ["date", "alerts"]⟩ := by decide
  simp only [validate_params, amendedValidParams, hl, Option.some.injEq, exists_eq_left',
    Bool.and_eq_true]
  rw [date_check_iff, time_check_iff, required_all_iff,
    unexpected_iff ⟨["id"], [], ["date", "alerts"]⟩ ps]
  simp only [List.isEmpty_nil, Bool.true_or]
  tauto

theorem c3_iff_composition (ps : Params) :
    validate_params "composition" ps = true ↔ amendedValidParams "composition" ps := by
  have hl : lookupEndpoint "composition" = some ⟨["id"], [], ["data"]⟩ := by decide
  simp only [validate_params, amendedValidParams, hl, Option.some.injEq, exists_eq_left',
    Bool.and_eq_true]
  rw [date_check_iff, time_check_iff, required_all_iff,
    unexpected_iff ⟨["id"], [], ["data"]⟩ ps]
  simp only [List.isEmpty_nil, Bool.true_or]
  tauto

theorem c3_iff_disturbances (ps : Params) :
    validate_params "disturbances" ps = true ↔ amendedValidParams "disturbances" ps := by
  have hl : lookupEndpoint "disturbances" = some ⟨[], [], ["lineBreakCharacter"]⟩ := by decide
  simp only [validate_params, amendedValidParams, hl, Option.some.injEq, exists_eq_left',
    Bool.and_eq_true]
  rw [date_check_iff, time_check_iff, required_all_iff,
    unexpected_iff ⟨[], [], ["lineBreakCharacter"]⟩ ps]
  simp only [List.isEmpty_nil, Bool.true_or]
  tauto

theorem lookupEndpoint_none (method : String)
    (h1 : method ≠ "stations") (h2 : method ≠ "liveboard") (h3 : method ≠ "connections")
    (h4 : method ≠ "vehicle") (h5 : method ≠ "composition") (h6 : method ≠ "disturbances") :
    lookupEndpoint method = none := by
  simp [lookupEndpoint, endpoints, List.find?, Ne.symm h1, Ne.symm h2, Ne.symm h3,
    Ne.symm h4, Ne.symm h5, Ne.symm h6]

/-- C3 as amended: validation succeeds exactly under the claim's
conditions with one correction — a `date`/`time` supplied as the empty
string is exempt from format checking, because Python's falsiness test
treats it like an absent value; and whenever validation fails, the
request orchestration returns an absent result immediately, touching
neither the network (no GET is counted) nor the client state. -/
theorem c3_validation_iff :
    (∀ method ps, validate_params method ps = true ↔ amendedValidParams method ps) ∧
    (∀ fuel (oracle : Nat → Transport) (times : Nat → Rat) method args
        (st : ClientState) sends0,
        validate_params method args = false →
        do_request (fuel + 1) oracle times method args st sends0
          = { result := some none, state := st, sends := sends0, sleeps := [] }) := by
  constructor
  · intro method ps
    by_cases h1 : method = "stations"
    · subst h1
      exact c3_iff_stations ps
    by_cases h2 : method = "liveboard"
    · subst h2
      exact c3_iff_liveboard ps
    by_cases h3 : method = "connections"
    · subst h3
      exact c3_iff_connections ps
    by_cases h4 : method = "vehicle"
    · subst h4
      exact c3_iff_vehicle ps
    by_cases h5 : method = "composition"
    · subst h5
      exact c3_iff_composition ps
    by_cases h6 : method = "disturbances"
    · subst h6
      exact c3_iff_disturbances ps
    have hl := lookupEndpoint_none method h1 h2 h3 h4 h5 h6
    simp [validate_params, amendedValidParams, hl]
  · intro fuel oracle times method args st sends0 hv
    by_cases hn : st.session.isNone = true
    · simp [do_request, hn]
    · simp [do_request, hn, hv]

/-- Witness for C3: the `vehicle` endpoint with no parameters fails
validation, and the orchestration returns an absent result with no GET
issued and the state untouched. -/
theorem c3_validation_iff_witness :
    validate_params "vehicle" [] = false ∧
    do_request 1 oracle200 (fun _ => 0) "vehicle" [] readyClient 0
      = { result := some none, state := readyClient, sends := 0, sleeps := [] } :=
  ⟨by decide,
    c3_validation_iff.2 0 oracle200 (fun _ => 0) "vehicle" [] readyClient 0 (by decide)⟩

/-- C3 counterexample: `{id: "IC538", date: ""}` on `vehicle` passes
validation although the present `date` value `""` does not parse as
DDMMYY, refuting the claimed biconditional as stated. -/
theorem c3_validation_counterexample :
    validate_params "vehicle" [("id", some "IC538"), ("date", some "")] = true ∧
    ¬ claimValidParams "vehicle" [("id", some "IC538"), ("date", some "")] := by
  constructor
  · decide
  · rintro ⟨ep, -, -, -, -, hdate, -⟩
    have h := hdate "" (by decide)
    exact absurd h (by decide)

theorem take16_hex (bytes : List Nat) :
    (sha256HexChars bytes).take 16
      = hex4 (sha256Digest bytes).a ++ hex4 (sha256Digest bytes).b := rfl

theorem add32_lt (a b : Nat) : add32 a b < w32 := Nat.mod_lt _ (by decide)

theorem processBlock_bounded (st : Sha256State) (blk : List Nat) :
    (processBlock st blk).a < w32 ∧ (processBlock st blk).b < w32 :=
  ⟨add32_lt _ _, add32_lt _ _⟩

theorem foldl_processBlock_bounded (blocks : List (List Nat)) :
    ∀ st : Sha256State, st.a < w32 → st.b < w32 →
      (blocks.foldl processBlock st).a < w32 ∧ (blocks.foldl processBlock st).b < w32 := by
  induction blocks with
  | nil =>
    intro st h1 h2
    exact ⟨h1, h2⟩
  | cons b rest ih =>
    intro st _ _
    rw [List.foldl_cons]
    exact ih (processBlock st b) (processBlock_bounded st b).1 (processBlock_bounded st b).2

theorem digest_bounded (msg : List Nat) :
    (sha256Digest msg).a < w32 ∧ (sha256Digest msg).b < w32 :=
  foldl_processBlock_bounded _ shaInit (by decide) (by decide)

theorem sortArgs_eq_of_perm (l1 l2 : Params) (hp : l1.Perm l2)
    (hnd : (l1.map Prod.fst).Nodup) : sortArgs l1 = sortArgs l2 := by
  have hs1 := List.sorted_insertionSort (fun a b : String × Option String => a.1 ≤ b.1) l1
  have hs2 := List.sorted_insertionSort (fun a b : String × Option String => a.1 ≤ b.1) l2
  have hperm : (sortArgs l1).Perm (sortArgs l2) :=
    ((List.perm_insertionSort _ l1).trans hp).trans (List.perm_insertionSort _ l2).symm
  have hnd2 : (l2.map Prod.fst).Nodup := ((hp.map Prod.fst).nodup_iff).mp hnd
  have key_nd1 : ((sortArgs l1).map Prod.fst).Nodup :=
    (((List.perm_insertionSort _ l1).map Prod.fst).nodup_iff).mpr hnd
  have key_nd2 : ((sortArgs l2).map Prod.fst).Nodup :=
    (((List.perm_insertionSort _ l2).map Prod.fst).nodup_iff).mpr hnd2
  have hlt1 : List.Sorted (fun a b : String × Option String => a.1 < b.1) (sortArgs l1) :=
    (hs1.and (List.pairwise_map.mp key_nd1)).imp fun h => lt_of_le_of_ne h.1 h.2
  have hlt2 : List.Sorted (fun a b : String × Option String => a.1 < b.1) (sortArgs l2) :=
    (hs2.and (List.pairwise_map.mp key_nd2)).imp fun h => lt_of_le_of_ne h.1 h.2
  exact List.eq_of_perm_of_sorted hperm hlt1 hlt2

theorem key_order_indep (lang m : String) (l1 l2 : Params) (hp : l1.Perm l2)
    (hnd : (l1.map Prod.fst).Nodup) :
    generate_cache_key lang m l1 = generate_cache_key lang m l2 := by
  have hsort := sortArgs_eq_of_perm l1 l2 hp hnd
  have hemp : l1.isEmpty = l2.isEmpty := by
    cases h1 : l1.isEmpty <;> cases h2 : l2.isEmpty
    · rfl
    · exfalso
      rw [List.isEmpty_iff] at h2
      subst h2
      rw [hp.eq_nil] at h1
      simp at h1
    · exfalso
      rw [List.isEmpty_iff] at h1
      subst h1
      rw [hp.symm.eq_nil] at h2
      simp at h2
    · rfl
  unfold generate_cache_key cache_key_source
  rw [hsort, hemp]

theorem cache_key_source_data (lang method : String) (args : Params) :
    (cache_key_source lang method args).data
      = method.data ++ '|' :: (lang.data ++ argsTailChars args) := by
  unfold cache_key_source argsTailChars
  by_cases h : args.isEmpty
  · rw [if_pos h, if_pos h]
    show (joinBar [method, lang]).data = _
    simp [joinBar, String.data_append]
  · rw [if_neg h, if_neg h]
    cases hm : (sortArgs args).map (fun kv => kv.1 ++ "=" ++ pyStrOfValue kv.2) with
    | nil =>
      exfalso
      have hz : sortArgs args = [] := by
        cases hz : sortArgs args
        · rfl
        · rw [hz] at hm
          simp at hm
      have hlen := (List.perm_insertionSort
        (fun a b : String × Option String => a.1 ≤ b.1) args).length_eq
      rw [show List.insertionSort (fun a b : String × Option String => a.1 ≤ b.1) args
          = sortArgs args from rfl, hz] at hlen
      rw [List.isEmpty_iff] at h
      exact h (List.length_eq_zero.mp hlen.symm)
    | cons p ps =>
      show (joinBar (method :: lang :: p :: ps)).data = _
      simp [joinBar, String.data_append]

theorem key_source_inj (m1 m2 lg1 lg2 : String) (args : Params)
    (h1 : lg1 ∈ (["nl", "fr", "en", "de"] : List String))
    (h2 : lg2 ∈ (["nl", "fr", "en", "de"] : List String))
    (heq : cache_key_source lg1 m1 args = cache_key_source lg2 m2 args) :
    m1 = m2 ∧ lg1 = lg2 := by
  have hd := congrArg String.data heq
  rw [cache_key_source_data, cache_key_source_data] at hd
  have hl1 : lg1.data.length = 2 := by
    rcases (by simpa using h1 : lg1 = "nl" ∨ lg1 = "fr" ∨ lg1 = "en" ∨ lg1 = "de")
      with rfl | rfl | rfl | rfl <;> rfl
  have hl2 : lg2.data.length = 2 := by
    rcases (by simpa using h2 : lg2 = "nl" ∨ lg2 = "fr" ∨ lg2 = "en" ∨ lg2 = "de")
      with rfl | rfl | rfl | rfl <;> rfl
  have hlen : ('|' :: (lg1.data ++ argsTailChars args)).length
      = ('|' :: (lg2.data ++ argsTailChars args)).length := by
    simp [hl1, hl2]
  obtain ⟨hm, hrest⟩ := List.append_inj' hd hlen
  have hlg : lg1.data = lg2.data := by
    injection hrest with _ hrest2
    exact (List.append_inj hrest2 (by rw [hl1, hl2])).1
  exact ⟨String.ext hm, String.ext hlg⟩

/-- C6 as amended: the fingerprint is a pure function of endpoint,
locale and the argument dict, independent of parameter insertion order
(any permutation of a dict with distinct keys hashes identically); and
the pre-hash key strings never collide across distinct endpoints or
distinct (normalized) locales for the same arguments.  Distinctness of
the final fingerprints cannot be guaranteed: the 16-hex-character
truncated SHA-256 has finitely many values (see the counterexample). -/
theorem c6_fingerprint_properties :
    (∀ lang m (l1 l2 : Params), l1.Perm l2 → (l1.map Prod.fst).Nodup →
        generate_cache_key lang m l1 = generate_cache_key lang m l2) ∧
    (∀ m1 m2 lg1 lg2 (args : Params),
        lg1 ∈ (["nl", "fr", "en", "de"] : List String) →
        lg2 ∈ (["nl", "fr", "en", "de"] : List String) →
        cache_key_source lg1 m1 args = cache_key_source lg2 m2 args →
        m1 = m2 ∧ lg1 = lg2) :=
  ⟨fun lang m l1 l2 hp hnd => key_order_indep lang m l1 l2 hp hnd,
   fun m1 m2 lg1 lg2 args h1 h2 heq => key_source_inj m1 m2 lg1 lg2 args h1 h2 heq⟩

/-- Witness for C6: the dicts `{b: 2, a: 1}` and `{a: 1, b: 2}` hash to
the same fingerprint, and equal key strings for the `en` locale pin
down the method and locale. -/
theorem c6_fingerprint_properties_witness :
    ([("b", some "2"), ("a", some "1")] : Params).Perm [("a", some "1"), ("b", some "2")] ∧
    (([("b", some "2"), ("a", some "1")] : Params).map Prod.fst).Nodup ∧
    generate_cache_key "en" "liveboard" [("b", some "2"), ("a", some "1")]
      = generate_cache_key "en" "liveboard" [("a", some "1"), ("b", some "2")] ∧
    ("en" : String) ∈ (["nl", "fr", "en", "de"] : List String) ∧
    (("stations" : String) = "stations" ∧ ("en" : String) = "en") :=
  ⟨List.Perm.swap _ _ _, by decide,
    c6_fingerprint_properties.1 "en" "liveboard" _ _ (List.Perm.swap _ _ _) (by decide),
    by decide,
    c6_fingerprint_properties.2 "stations" "stations" "en" "en" [] (by decide) (by decide) rfl⟩

/-- C6 counterexample: the claimed injectivity of the fingerprint in
the endpoint name is impossible — the fingerprint keeps only 16 hex
characters of the digest, so by counting there exist two distinct
method names with identical fingerprints for the same locale and
arguments. -/
theorem c6_distinct_endpoints_counterexample :
    ∃ m1 m2 : String, m1 ≠ m2 ∧
      generate_cache_key "en" m1 [] = generate_cache_key "en" m2 [] := by
  have hmap : ∀ i ∈ Finset.range (w32 * w32 + 1),
      (fun n => (sha256Digest (utf8Encode (cache_key_source "en" (aString n) []))).a * w32
        + (sha256Digest (utf8Encode (cache_key_source "en" (aString n) []))).b) i
        ∈ Finset.range (w32 * w32) := by
    intro i _
    have ha := (digest_bounded (utf8Encode (cache_key_source "en" (aString i) []))).1
    have hb := (digest_bounded (utf8Encode (cache_key_source "en" (aString i) []))).2
    simp only [Finset.mem_range]
    calc (sha256Digest (utf8Encode (cache_key_source "en" (aString i) []))).a * w32
          + (sha256Digest (utf8Encode (cache_key_source "en" (aString i) []))).b
        < ((sha256Digest (utf8Encode (cache_key_source "en" (aString i) []))).a + 1) * w32 := by
          rw [Nat.add_mul, Nat.one_mul]
          omega
      _ ≤ w32 * w32 := Nat.mul_le_mul_right _ (by omega)
  have hcard : (Finset.range (w32 * w32)).card < (Finset.range (w32 * w32 + 1)).card := by
    simp [Finset.card_range]
  obtain ⟨i, hi, j, hj, hij, heq⟩ :=
    Finset.exists_ne_map_eq_of_card_lt_of_maps_to hcard hmap
  have heq2 : (sha256Digest (utf8Encode (cache_key_source "en" (aString i) []))).a * w32
        + (sha256Digest (utf8Encode (cache_key_source "en" (aString i) []))).b
      = (sha256Digest (utf8Encode (cache_key_source "en" (aString j) []))).a * w32
        + (sha256Digest (utf8Encode (cache_key_source "en" (aString j) []))).b := heq
  have hbi := (digest_bounded (utf8Encode (cache_key_source "en" (aString i) []))).2
  have hbj := (digest_bounded (utf8Encode (cache_key_source "en" (aString j) []))).2
  have hwa : (sha256Digest (utf8Encode (cache_key_source "en" (aString i) []))).a
      = (sha256Digest (utf8Encode (cache_key_source "en" (aString j) []))).a := by
    unfold w32 at heq2 hbi hbj
    omega
  have hwb : (sha256Digest (utf8Encode (cache_key_source "en" (aString i) []))).b
      = (sha256Digest (utf8Encode (cache_key_source "en" (aString j) []))).b := by
    unfold w32 at heq2 hbi hbj
    omega
  refine ⟨aString i, aString j, ?_, ?_⟩
  · intro h
    apply hij
    have hlen : (aString i).data.length = (aString j).data.length := by rw [h]
    simpa [aString] using hlen
  · show (⟨(sha256HexChars (utf8Encode (cache_key_source "en" (aString i) []))).take 16⟩ : String)
        = ⟨(sha256HexChars (utf8Encode (cache_key_source "en" (aString j) []))).take 16⟩
    rw [take16_hex, take16_hex, hwa, hwb]

end Pyrail
